import Mathlib

set_option linter.all false

/- Shallow embedding of currency_rates_downloader.py: the synchronization
logic of download_rates and save_data, the staleness filter, and the
email body assembly of the main block. Network, database and SMTP are
modelled as explicit parameters (a fetch oracle and a persist oracle);
uncaught Python exceptions are modelled as an error field that stops
the corresponding loop. -/

namespace CRD

/-- Calendar date as used by the script (Python datetime.date): a year,
month, day triple compared lexicographically. -/
structure Date where
  year : Nat
  month : Nat
  day : Nat
deriving DecidableEq, Repr

/-- Python date comparison a < b, lexicographic on year, month, day. -/
def dateLt (a b : Date) : Bool :=
  decide (a.year < b.year ∨ (a.year = b.year ∧ (a.month < b.month ∨
    (a.month = b.month ∧ a.day < b.day))))

/-- A leaf element of a currency entry: tag and text content, as read by
the loop that does crncy[detail.tag] = detail.text. -/
structure XmlDetail where
  tag : String
  text : String
deriving DecidableEq, Repr

/-- One child element of the XML root, i.e. one currency entry, with its
attributes and its child elements. -/
structure XmlEntry where
  attrs : List (String × String)
  details : List XmlDetail
deriving DecidableEq, Repr

/-- The XML root element: its attributes and its currency entries. -/
structure XmlRoot where
  attrs : List (String × String)
  entries : List XmlEntry
deriving DecidableEq, Repr

/-- A response body as seen by ET.fromstring: either not well formed XML,
where fromstring raises ParseError, or a parsed root element. -/
inductive Doc
  | malformed
  | wellFormed (root : XmlRoot)
deriving DecidableEq, Repr

/-- Uncaught Python exceptions that can escape save_data: ParseError from
ET.fromstring, KeyError from a dict or attrib lookup, ValueError from
datetime.strptime, and a database error from cur.execute. -/
inductive Err
  | parseError
  | keyError (k : String)
  | valueError
  | persistError
deriving DecidableEq, Repr

/-- Values passed as SQL parameters: the script passes the nominal as the
raw feed string for CBR and as the integer literal 1 for NBU. -/
inductive PyVal
  | pyStr (s : String)
  | pyInt (n : Int)
deriving DecidableEq, Repr

/-- One invocation of currency.f_crncy_downldr_save_rate. The value
argument is kept as the comma normalized text handed to float, since no
claim concerns float arithmetic. -/
structure PersistCall where
  srcId : Nat
  crncy : String
  date : Date
  nominal : PyVal
  value : String
deriving DecidableEq, Repr

/-- Python dict lookup in the freshness map crncy_list. -/
def lookupF (m : List (String × Date)) (k : String) : Option Date :=
  (m.find? (fun p => p.1 == k)).map (fun p => p.2)

/-- Attribute lookup elem.attrib[k]: KeyError when absent. -/
def attrGet (attrs : List (String × String)) (k : String) : Except Err String :=
  match attrs.find? (fun p => p.1 == k) with
  | some p => Except.ok p.2
  | none => Except.error (Err.keyError k)

/-- Last occurrence wins, modelling the repeated dict assignment
crncy[detail.tag] = detail.text over the details in document order. -/
def lastFind (details : List XmlDetail) (k : String) : Option String :=
  (details.reverse.find? (fun d => d.tag == k)).map (fun d => d.text)

/-- Lookup crncy[k] for the NBU dict, built only from the details. -/
def dictGet (details : List XmlDetail) (k : String) : Except Err String :=
  match lastFind details k with
  | some v => Except.ok v
  | none => Except.error (Err.keyError k)

/-- Lookup crncy[k] for the CBR dict, seeded with the Identificator key
from the ID attribute and then updated by the details. -/
def crncyGet (idAttr : String) (details : List XmlDetail) (k : String) :
    Except Err String :=
  match lastFind details k with
  | some v => Except.ok v
  | none =>
    if k == "Identificator" then Except.ok idAttr
    else Except.error (Err.keyError k)

/-- The Identificator value actually persisted for a CBR entry. -/
def identOf (idAttr : String) (details : List XmlDetail) : String :=
  (lastFind details "Identificator").getD idAttr

/-- The comma to period normalization applied before float: the pattern
is a single character, so Python replace maps each comma to a period. -/
def normalizeDecimal (s : String) : String :=
  ⟨s.data.map (fun c => if c = ',' then '.' else c)⟩

/-- Split a character list at every occurrence of the separator. -/
def splitChar (c : Char) : List Char → List (List Char)
  | [] => [[]]
  | x :: xs =>
    match splitChar c xs, decide (x = c) with
    | r, true => [] :: r
    | [], false => [[x]]
    | y :: ys, false => (x :: y) :: ys

/-- Read a nonempty all digit character list as a number. -/
def digitsToNat (l : List Char) : Option Nat :=
  if l ≠ [] ∧ l.all Char.isDigit then
    some (l.foldl (fun acc c => acc * 10 + (c.toNat - 48)) 0)
  else none

/-- Day count per month with Gregorian leap years, as validated by
datetime when strptime builds the date object. -/
def daysInMonth (y m : Nat) : Nat :=
  if m = 2 then
    if (y % 4 = 0 ∧ y % 100 ≠ 0) ∨ y % 400 = 0 then 29 else 28
  else if m = 4 ∨ m = 6 ∨ m = 9 ∨ m = 11 then 30 else 31

/-- Parse a day.month.year string as datetime.strptime with the format
day period month period year does, returning none where strptime raises
ValueError. -/
def parseDMY (s : String) : Option Date :=
  match splitChar '.' s.data with
  | [ds, ms, ys] =>
    match digitsToNat ds, digitsToNat ms, digitsToNat ys with
    | some d, some m, some y =>
      if 1 ≤ m ∧ m ≤ 12 ∧ 1 ≤ d ∧ d ≤ daysInMonth y m ∧ 1 ≤ y ∧ y ≤ 9999 then
        some ⟨y, m, d⟩
      else none
    | _, _, _ => none
  | _ => none

/-- The staleness filter: the guard at lines 198 to 199 and 227 to 228 of
the script. An observation is kept iff its code is a key of crncy_list
and the fetch date is strictly newer than the stored date. -/
def isNew (code : String) (date : Date) (m : List (String × Date)) : Bool :=
  match lookupF m code with
  | none => false
  | some ld => dateLt ld date

/-- Outcome of handling one currency entry: the report fragment, the
persist invocations attempted, and the uncaught exception if any. -/
structure EntryResult where
  line : String
  calls : List PersistCall
  err : Option Err
deriving DecidableEq, Repr

/-- One CBR entry of the loop body of save_data, lines 192 to 222:
attribute lookup of ID, the staleness filter, the document date guard
against the Date attribute of the root, then the persist call and the
report line. Lookup and conversion failures surface as errors in the
order Python evaluates them. -/
def processEntryA (date : Date) (rootAttrs : List (String × String))
    (varId : Nat) (m : List (String × Date)) (pOk : PersistCall → Bool)
    (e : XmlEntry) : EntryResult :=
  match attrGet e.attrs "ID" with
  | Except.error er => ⟨"", [], some er⟩
  | Except.ok idAttr =>
    if isNew idAttr date m then
      match attrGet rootAttrs "Date" with
      | Except.error er => ⟨"", [], some er⟩
      | Except.ok ds =>
        match parseDMY ds with
        | none => ⟨"", [], some Err.valueError⟩
        | some docDate =>
          if date = docDate then
            match crncyGet idAttr e.details "Nominal" with
            | Except.error er => ⟨"", [], some er⟩
            | Except.ok nom =>
              match crncyGet idAttr e.details "Value" with
              | Except.error er => ⟨"", [], some er⟩
              | Except.ok v =>
                let call : PersistCall :=
                  ⟨varId, identOf idAttr e.details, date, PyVal.pyStr nom,
                    normalizeDecimal v⟩
                if pOk call then
                  match crncyGet idAttr e.details "CharCode" with
                  | Except.error er => ⟨"", [call], some er⟩
                  | Except.ok cc =>
                    ⟨cc ++ ": " ++ v ++ "/" ++ nom ++ "\n", [call], none⟩
                else ⟨"", [call], some Err.persistError⟩
          else ⟨"", [], none⟩
    else ⟨"", [], none⟩

/-- One NBU entry of the loop body of save_data, lines 223 to 245: the
dict built from the details, the staleness filter on the r030 field,
then the persist call with nominal 1 and the report line. -/
def processEntryB (date : Date) (varId : Nat) (m : List (String × Date))
    (pOk : PersistCall → Bool) (e : XmlEntry) : EntryResult :=
  match dictGet e.details "r030" with
  | Except.error er => ⟨"", [], some er⟩
  | Except.ok c =>
    if isNew c date m then
      match dictGet e.details "rate" with
      | Except.error er => ⟨"", [], some er⟩
      | Except.ok rate =>
        let call : PersistCall :=
          ⟨varId, c, date, PyVal.pyInt 1, normalizeDecimal rate⟩
        if pOk call then
          match dictGet e.details "cc" with
          | Except.error er => ⟨"", [call], some er⟩
          | Except.ok cc => ⟨cc ++ ": " ++ rate ++ "/1" ++ "\n", [call], none⟩
        else ⟨"", [call], some Err.persistError⟩
    else ⟨"", [], none⟩

/-- The branch on var_in_crncy_id at line 192: 2 selects the CBR shape,
anything else the NBU shape. -/
def entryStep (date : Date) (rootAttrs : List (String × String))
    (varId : Nat) (m : List (String × Date)) (pOk : PersistCall → Bool)
    (e : XmlEntry) : EntryResult :=
  if varId = 2 then processEntryA date rootAttrs varId m pOk e
  else processEntryB date varId m pOk e

/-- Result of save_data: the returned email_body_date text, the persist
invocations attempted, and the uncaught exception if any. -/
structure SaveResult where
  report : String
  calls : List PersistCall
  err : Option Err
deriving DecidableEq, Repr

/-- Fold of save_data over the currency entries, stopping at the first
uncaught exception while keeping the persist trace. -/
def saveLoop (step : XmlEntry → EntryResult) :
    List XmlEntry → String → List PersistCall → SaveResult
  | [], rep, cs => ⟨rep, cs, none⟩
  | e :: es, rep, cs =>
    let r := step e
    match r.err with
    | some er => ⟨rep, cs ++ r.calls, some er⟩
    | none => saveLoop step es (rep ++ r.line) (cs ++ r.calls)

/-- save_data, lines 168 to 246: parse the document, then loop over the
currency entries accumulating email_body_date and persist calls. -/
def save_data (date : Date) (doc : Doc) (varId : Nat)
    (m : List (String × Date)) (pOk : PersistCall → Bool) : SaveResult :=
  match doc with
  | Doc.malformed => ⟨"", [], some Err.parseError⟩
  | Doc.wellFormed root =>
    saveLoop (entryStep date root.attrs varId m pOk) root.entries "" []

/-- Outcome of one requests.get call in download_rates. -/
inductive FetchResult
  | timeout
  | httpError (code : Nat)
  | transportError
  | success (doc : Doc)
deriving DecidableEq, Repr

/-- The fixed timeout passed to requests.get at line 148. -/
def REQUEST_TIMEOUT : Nat := 30

/-- Is the fetch outcome one of the three caught request exceptions. -/
def isFetchFailure : FetchResult → Bool
  | FetchResult.timeout => true
  | FetchResult.httpError _ => true
  | FetchResult.transportError => true
  | FetchResult.success _ => false

/-- Result of download_rates: the has_result_to_send flag, the email
body, the persist trace, the requests issued as url and timeout pairs,
and the uncaught exception if any. -/
structure RunResult where
  hasResult : Bool
  body : String
  calls : List PersistCall
  reqs : List (String × Nat)
  err : Option Err
deriving DecidableEq, Repr

/-- The fixed source header opening email_body at lines 139 to 140. -/
def header (varId : Nat) : String :=
  if varId = 2 then "Downloaded exchange rates from CBR:\n\n"
  else "Downloaded exchange rates from NBU :\n\n"

/-- Zero pad a number to two digits as Python str of a date does. -/
def pad2 (n : Nat) : String :=
  if n < 10 then "0" ++ toString n else toString n

/-- Zero pad a number to four digits as Python str of a date does. -/
def pad4 (n : Nat) : String :=
  if n < 10 then "000" ++ toString n
  else if n < 100 then "00" ++ toString n
  else if n < 1000 then "0" ++ toString n
  else toString n

/-- Python str of a date: year hyphen month hyphen day, zero padded. -/
def dateStr (d : Date) : String :=
  pad4 d.year ++ "-" ++ pad2 d.month ++ "-" ++ pad2 d.day

/-- The per work item loop of download_rates, lines 142 to 164: issue the
request, contain the three request exceptions by skipping the item, call
save_data on success, and append a date section when email_body_date is
not empty. An exception escaping save_data stops the loop. -/
def downloadLoop (m : List (String × Date)) (varId : Nat)
    (fetch : String → Nat → FetchResult) (pOk : PersistCall → Bool) :
    List (Date × String) → RunResult → RunResult
  | [], acc => acc
  | (date, url) :: rest, acc =>
    let acc1 : RunResult := { acc with reqs := acc.reqs ++ [(url, REQUEST_TIMEOUT)] }
    match fetch url REQUEST_TIMEOUT with
    | FetchResult.timeout => downloadLoop m varId fetch pOk rest acc1
    | FetchResult.httpError _ => downloadLoop m varId fetch pOk rest acc1
    | FetchResult.transportError => downloadLoop m varId fetch pOk rest acc1
    | FetchResult.success doc =>
      let r := save_data date doc varId m pOk
      match r.err with
      | some er => { acc1 with calls := acc1.calls ++ r.calls, err := some er }
      | none =>
        if r.report = "" then
          downloadLoop m varId fetch pOk rest
            { acc1 with calls := acc1.calls ++ r.calls }
        else
          downloadLoop m varId fetch pOk rest
            { acc1 with
              hasResult := true
              body := acc1.body ++ "***** Exchange rates on date " ++
                dateStr date ++ " *****" ++ "\n" ++ r.report ++ "\n"
              calls := acc1.calls ++ r.calls }

/-- download_rates, lines 122 to 165: start from the source header and
fold the work items in order. -/
def download_rates (urlList : List (Date × String))
    (m : List (String × Date)) (varId : Nat)
    (fetch : String → Nat → FetchResult) (pOk : PersistCall → Bool) :
    RunResult :=
  downloadLoop m varId fetch pOk urlList ⟨false, header varId, [], [], none⟩

/-- The email body assembly of the main block, lines 325 to 331. -/
def combineReports (cbrHas : Bool) (cbrBody : String)
    (nbuHas : Bool) (nbuBody : String) : String :=
  if cbrHas && !nbuHas then cbrBody
  else if cbrHas && nbuHas then cbrBody ++ "\n\n" ++ nbuBody
  else if !cbrHas && nbuHas then nbuBody
  else ""

/-- The guard at line 334: send_email runs iff the body is not empty. -/
def notifierInvoked (body : String) : Bool := body != ""

/-- The currency code an entry would persist under, when its code field
is readable: the Identificator value for the CBR shape, the r030 field
for the NBU shape. -/
def entryCode (varId : Nat) (e : XmlEntry) : Option String :=
  if varId = 2 then
    match attrGet e.attrs "ID" with
    | Except.ok idAttr => some (identOf idAttr e.details)
    | Except.error _ => none
  else
    match dictGet e.details "r030" with
    | Except.ok c => some c
    | Except.error _ => none

/-- An entry carries no new data for the run: its code field is readable
and the staleness filter rejects it, either because the code is absent
from the freshness map or because the stored date is at least as recent
as the fetch date. -/
def entryFresh (varId : Nat) (date : Date) (m : List (String × Date))
    (e : XmlEntry) : Bool :=
  if varId = 2 then
    match attrGet e.attrs "ID" with
    | Except.ok c => !(isNew c date m)
    | Except.error _ => false
  else
    match dictGet e.details "r030" with
    | Except.ok c => !(isNew c date m)
    | Except.error _ => false

/-- Example freshness map holding currency 036 at January 9 2024. -/
def exFresh : List (String × Date) := [("036", ⟨2024, 1, 9⟩)]

/-- Example NBU entry for currency 036. -/
def exEntryB : XmlEntry :=
  ⟨[], [⟨"r030", "036"⟩, ⟨"rate", "2,5"⟩, ⟨"cc", "AUD"⟩]⟩

/-- Example NBU document with a single entry. -/
def exDocB1 : Doc := Doc.wellFormed ⟨[], [exEntryB]⟩

/-- Example NBU document whose two entries carry the same currency. -/
def exDocB2 : Doc := Doc.wellFormed ⟨[], [exEntryB, exEntryB]⟩

/-- Example NBU document whose entry lacks the r030 field. -/
def exDocBNoCode : Doc :=
  Doc.wellFormed ⟨[], [⟨[], [⟨"rate", "2,5"⟩, ⟨"cc", "AUD"⟩]⟩]⟩

/-- Example freshness map holding currency 840 at January 9 2024. -/
def exFreshA : List (String × Date) := [("840", ⟨2024, 1, 9⟩)]

/-- Example CBR entry for currency 840 with all fields present. -/
def exEntryA : XmlEntry :=
  ⟨[("ID", "840")],
   [⟨"Nominal", "1"⟩, ⟨"Value", "90,5000"⟩, ⟨"CharCode", "USD"⟩]⟩

/-- Example CBR root dated January 10 2024 holding one entry. -/
def exRootA : XmlRoot := ⟨[("Date", "10.01.2024")], [exEntryA]⟩

/-- Strict date order is irreflexive. -/
theorem dateLt_irrefl (a : Date) : dateLt a a = false := by
  simp [dateLt]

/-- Strict date order is asymmetric. -/
theorem dateLt_asymm {a b : Date} (h : dateLt a b = true) :
    dateLt b a = false := by
  simp only [dateLt, decide_eq_true_eq, decide_eq_false_iff_not] at h ⊢
  omega

/-- C1: the staleness filter keeps an observation iff its currency code
is a key of the freshness map and its date is strictly greater than the
mapped last known date; an absent code is dropped, an equal or older
date is dropped, and a dropped NBU entry produces no persist call and
no report line. -/
theorem c1_staleness_filter (code : String) (date : Date)
    (m : List (String × Date)) :
    (isNew code date m = true ↔
      ∃ ld, lookupF m code = some ld ∧ dateLt ld date = true)
    ∧ (lookupF m code = none → isNew code date m = false)
    ∧ (∀ ld, lookupF m code = some ld → date = ld ∨ dateLt date ld = true →
        isNew code date m = false)
    ∧ (∀ varId pOk e, dictGet e.details "r030" = Except.ok code →
        isNew code date m = false →
        (processEntryB date varId m pOk e).calls = [] ∧
        (processEntryB date varId m pOk e).line = "") := by
  refine ⟨?_, ?_, ?_, ?_⟩
  · unfold isNew
    cases h : lookupF m code <;> simp [h]
  · intro h
    unfold isNew
    rw [h]
  · intro ld h hle
    unfold isNew
    rw [h]
    rcases hle with rfl | hlt
    · exact dateLt_irrefl _
    · exact dateLt_asymm hlt
  · intro varId pOk e hr hnew
    simp [processEntryB, hr, hnew]

/-- Concrete check of c1_staleness_filter: an unknown code is dropped, an
equal date is dropped, and a dropped NBU entry is not persisted. -/
theorem c1_staleness_filter_witness :
    isNew "978" ⟨2024, 1, 10⟩ [] = false ∧
    isNew "978" ⟨2024, 1, 10⟩ [("978", ⟨2024, 1, 10⟩)] = false ∧
    (processEntryB ⟨2024, 1, 10⟩ 8 [] (fun _ => true)
      ⟨[], [⟨"r030", "978"⟩]⟩).calls = [] :=
  ⟨(c1_staleness_filter "978" ⟨2024, 1, 10⟩ []).2.1 rfl,
   (c1_staleness_filter "978" ⟨2024, 1, 10⟩ [("978", ⟨2024, 1, 10⟩)]).2.2.1
     ⟨2024, 1, 10⟩ rfl (Or.inl rfl),
   ((c1_staleness_filter "978" ⟨2024, 1, 10⟩ []).2.2.2 8 (fun _ => true)
     ⟨[], [⟨"r030", "978"⟩]⟩ rfl (by decide)).1⟩

/-- C2: a CBR entry yields an observation only when the caller supplied
fetch date equals the document date declared by the Date attribute of
the root, parsed in day month year format: when the two differ, the
entry produces no persist call and no report line even if all its other
fields are well formed. -/
theorem c2_document_date_guard (date : Date)
    (rootAttrs : List (String × String)) (varId : Nat)
    (m : List (String × Date)) (pOk : PersistCall → Bool) (e : XmlEntry)
    (ds : String) (docDate : Date)
    (hds : attrGet rootAttrs "Date" = Except.ok ds)
    (hparse : parseDMY ds = some docDate)
    (hne : date ≠ docDate) :
    (processEntryA date rootAttrs varId m pOk e).calls = [] ∧
    (processEntryA date rootAttrs varId m pOk e).line = "" := by
  unfold processEntryA
  cases hid : attrGet e.attrs "ID" with
  | error er => exact ⟨rfl, rfl⟩
  | ok idAttr =>
    by_cases hn : isNew idAttr date m = true
    · simp [hn, hds, hparse, hne]
    · simp [hn]

/-- Concrete check of c2_document_date_guard: a well formed entry under a
document dated 10.01.2024 yields nothing when fetched for 11.01.2024. -/
theorem c2_document_date_guard_witness :
    (processEntryA ⟨2024, 1, 11⟩ [("Date", "10.01.2024")] 2
      [("840", ⟨2024, 1, 9⟩)] (fun _ => true)
      ⟨[("ID", "840")],
       [⟨"Nominal", "1"⟩, ⟨"Value", "90,5000"⟩, ⟨"CharCode", "USD"⟩]⟩).calls
      = [] :=
  (c2_document_date_guard ⟨2024, 1, 11⟩ [("Date", "10.01.2024")] 2
    [("840", ⟨2024, 1, 9⟩)] (fun _ => true)
    ⟨[("ID", "840")],
     [⟨"Nominal", "1"⟩, ⟨"Value", "90,5000"⟩, ⟨"CharCode", "USD"⟩]⟩
    "10.01.2024" ⟨2024, 1, 10⟩ rfl (by decide) (by decide)).1

/-- C6: the main block concatenates, in the fixed order CBR then NBU,
only the bodies of sources whose flag is true, joined by a blank line
separator; with no flagged source it returns the empty string and
send_email is then not invoked, and with only the second source flagged
it returns exactly that body with no leading separator. -/
theorem c6_combine_reports (f1 f2 : Bool) (b1 b2 : String) :
    combineReports f1 b1 f2 b2 =
      String.join (List.intersperse "\n\n"
        ((if f1 then [b1] else []) ++ (if f2 then [b2] else [])))
    ∧ combineReports false b1 false b2 = ""
    ∧ notifierInvoked (combineReports false b1 false b2) = false
    ∧ combineReports false b1 true b2 = b2 := by
  refine ⟨?_, rfl, rfl, rfl⟩
  cases f1 <;> cases f2 <;>
    simp [combineReports, String.join, List.intersperse,
      String.empty_append, String.append_assoc]

/-- Every persist call of one NBU entry has nominal 1. -/
theorem processEntryB_nominal_calls (date : Date) (varId : Nat)
    (m : List (String × Date)) (pOk : PersistCall → Bool) (e : XmlEntry) :
    ∀ call ∈ (processEntryB date varId m pOk e).calls,
      call.nominal = PyVal.pyInt 1 := by
  simp only [processEntryB]
  intro call hc
  repeat' split at hc
  all_goals simp_all

/-- The report line of one NBU entry, when not empty, shows the nominal
as the literal 1. -/
theorem processEntryB_line (date : Date) (varId : Nat)
    (m : List (String × Date)) (pOk : PersistCall → Bool) (e : XmlEntry) :
    (processEntryB date varId m pOk e).line = "" ∨
      ∃ cc rate, (processEntryB date varId m pOk e).line =
        cc ++ ": " ++ rate ++ "/1" ++ "\n" := by
  simp only [processEntryB]
  repeat' split
  all_goals try (left; rfl)
  all_goals right; exact ⟨_, _, rfl⟩

/-- Calls accumulated by the save_data loop satisfy any predicate that
holds on the starting trace and on each per entry call. -/
theorem saveLoop_calls_pred {P : PersistCall → Prop}
    {step : XmlEntry → EntryResult}
    (hstep : ∀ e call, call ∈ (step e).calls → P call) :
    ∀ (es : List XmlEntry) (rep : String) (cs : List PersistCall),
      (∀ call ∈ cs, P call) →
      ∀ call ∈ (saveLoop step es rep cs).calls, P call := by
  intro es
  induction es with
  | nil =>
    intro rep cs hcs call hc
    exact hcs call hc
  | cons e es ih =>
    intro rep cs hcs call hc
    have hacc : ∀ call ∈ cs ++ (step e).calls, P call := by
      intro c hcm
      rcases List.mem_append.mp hcm with h | h
      · exact hcs c h
      · exact hstep e c h
    simp only [saveLoop] at hc
    cases her : (step e).err with
    | some er =>
      rw [her] at hc
      exact hacc call hc
    | none =>
      rw [her] at hc
      exact ih _ _ hacc call hc

/-- C8: for a non CBR source every persist call carries the constant
nominal 1 regardless of entry contents, and every non empty NBU report
line shows the nominal as the literal 1. -/
theorem c8_nbu_nominal_one (date : Date) (doc : Doc) (varId : Nat)
    (m : List (String × Date)) (pOk : PersistCall → Bool)
    (hv : varId ≠ 2) :
    (∀ call ∈ (save_data date doc varId m pOk).calls,
      call.nominal = PyVal.pyInt 1) ∧
    (∀ e, (processEntryB date varId m pOk e).line = "" ∨
      ∃ cc rate, (processEntryB date varId m pOk e).line =
        cc ++ ": " ++ rate ++ "/1" ++ "\n") := by
  constructor
  · cases doc with
    | malformed =>
      intro call hc
      simp [save_data] at hc
    | wellFormed root =>
      have hstep : ∀ e call,
          call ∈ (entryStep date root.attrs varId m pOk e).calls →
          call.nominal = PyVal.pyInt 1 := by
        intro e call hc
        rw [entryStep, if_neg hv] at hc
        exact processEntryB_nominal_calls date varId m pOk e call hc
      exact saveLoop_calls_pred hstep root.entries "" [] (by simp)
  · intro e
    exact processEntryB_line date varId m pOk e

/-- Concrete check of c8_nbu_nominal_one on the one persist call of the
example NBU document. -/
theorem c8_nbu_nominal_one_witness :
    (⟨8, "036", ⟨2024, 1, 10⟩, PyVal.pyInt 1, "2.5"⟩ :
      PersistCall).nominal = PyVal.pyInt 1 :=
  (c8_nbu_nominal_one ⟨2024, 1, 10⟩ exDocB1 8 exFresh
    (fun _ => true) (by decide)).1
    ⟨8, "036", ⟨2024, 1, 10⟩, PyVal.pyInt 1, "2.5"⟩ (by decide)

/-- The save_data loop only appends to the persist trace. -/
theorem saveLoop_calls_prefix (step : XmlEntry → EntryResult) :
    ∀ (es : List XmlEntry) (rep : String) (cs : List PersistCall),
      ∃ tail, (saveLoop step es rep cs).calls = cs ++ tail := by
  intro es
  induction es with
  | nil =>
    intro rep cs
    exact ⟨[], (List.append_nil cs).symm⟩
  | cons e es ih =>
    intro rep cs
    simp only [saveLoop]
    cases her : (step e).err with
    | some er => exact ⟨(step e).calls, rfl⟩
    | none =>
      obtain ⟨t, ht⟩ := ih (rep ++ (step e).line) (cs ++ (step e).calls)
      exact ⟨(step e).calls ++ t, by rw [ht, List.append_assoc]⟩

/-- A CBR entry with no persist call contributes no report line. -/
theorem processEntryA_line_or_calls (date : Date)
    (rootAttrs : List (String × String)) (varId : Nat)
    (m : List (String × Date)) (pOk : PersistCall → Bool) (e : XmlEntry) :
    (processEntryA date rootAttrs varId m pOk e).line = "" ∨
    (processEntryA date rootAttrs varId m pOk e).calls ≠ [] := by
  simp only [processEntryA]
  repeat' split
  all_goals first | (left; rfl) | (right; simp)

/-- An NBU entry with no persist call contributes no report line. -/
theorem processEntryB_line_or_calls (date : Date) (varId : Nat)
    (m : List (String × Date)) (pOk : PersistCall → Bool) (e : XmlEntry) :
    (processEntryB date varId m pOk e).line = "" ∨
    (processEntryB date varId m pOk e).calls ≠ [] := by
  simp only [processEntryB]
  repeat' split
  all_goals first | (left; rfl) | (right; simp)

/-- An entry with no persist call contributes no report line. -/
theorem entryStep_line_or_calls (date : Date)
    (rootAttrs : List (String × String)) (varId : Nat)
    (m : List (String × Date)) (pOk : PersistCall → Bool) (e : XmlEntry) :
    (entryStep date rootAttrs varId m pOk e).line = "" ∨
    (entryStep date rootAttrs varId m pOk e).calls ≠ [] := by
  rw [entryStep]
  by_cases h : varId = 2
  · rw [if_pos h]
    exact processEntryA_line_or_calls date rootAttrs varId m pOk e
  · rw [if_neg h]
    exact processEntryB_line_or_calls date varId m pOk e

/-- A run of the save_data loop that adds no persist call adds no
report text. -/
theorem saveLoop_calls_nil_report {step : XmlEntry → EntryResult}
    (hstep : ∀ e, (step e).line = "" ∨ (step e).calls ≠ []) :
    ∀ (es : List XmlEntry) (rep : String) (cs : List PersistCall),
      (saveLoop step es rep cs).calls = cs →
      (saveLoop step es rep cs).report = rep := by
  intro es
  induction es with
  | nil =>
    intro rep cs h
    rfl
  | cons e es ih =>
    intro rep cs h
    simp only [saveLoop] at h ⊢
    cases her : (step e).err with
    | some er => rfl
    | none =>
      rw [her] at h
      obtain ⟨t, ht⟩ :=
        saveLoop_calls_prefix step es (rep ++ (step e).line)
          (cs ++ (step e).calls)
      rw [ht] at h
      have h2 : cs ++ ((step e).calls ++ t) = cs ++ [] := by
        rw [← List.append_assoc, h, List.append_nil]
      have h3 : (step e).calls = [] ∧ t = [] :=
        List.append_eq_nil.mp (List.append_cancel_left h2)
      have hline : (step e).line = "" := by
        rcases hstep e with hl | hcne
        · exact hl
        · exact absurd h3.1 hcne
      rw [hline, String.append_empty] at ht ⊢
      rw [h3.1, List.append_nil] at ht ⊢
      exact ih rep cs (by rw [ht, h3.2, List.append_nil])

/-- save_data adds report text only when it makes a persist call. -/
theorem save_data_calls_nil_report (date : Date) (doc : Doc) (varId : Nat)
    (m : List (String × Date)) (pOk : PersistCall → Bool)
    (h : (save_data date doc varId m pOk).calls = []) :
    (save_data date doc varId m pOk).report = "" := by
  cases doc with
  | malformed => rfl
  | wellFormed root =>
    exact saveLoop_calls_nil_report
      (fun e => entryStep_line_or_calls date root.attrs varId m pOk e)
      root.entries "" [] h

/-- One step of the download loop on a failed fetch: the item is
skipped, only the request trace grows. -/
theorem downloadLoop_cons_fail (m : List (String × Date)) (varId : Nat)
    (fetch : String → Nat → FetchResult) (pOk : PersistCall → Bool)
    (date : Date) (url : String) (rest : List (Date × String))
    (acc : RunResult)
    (hf : isFetchFailure (fetch url REQUEST_TIMEOUT) = true) :
    downloadLoop m varId fetch pOk ((date, url) :: rest) acc =
      downloadLoop m varId fetch pOk rest
        { acc with reqs := acc.reqs ++ [(url, REQUEST_TIMEOUT)] } := by
  simp only [downloadLoop]
  revert hf
  cases fetch url REQUEST_TIMEOUT with
  | timeout => intro hf; rfl
  | httpError code => intro hf; rfl
  | transportError => intro hf; rfl
  | success doc => intro hf; simp [isFetchFailure] at hf

/-- One step of the download loop when save_data raises: the loop stops
with the accumulated state, the request, the attempted calls and the
error. -/
theorem downloadLoop_cons_err (m : List (String × Date)) (varId : Nat)
    (fetch : String → Nat → FetchResult) (pOk : PersistCall → Bool)
    (date : Date) (url : String) (rest : List (Date × String))
    (acc : RunResult) (doc : Doc) (rep : String) (cs : List PersistCall)
    (er : Err) (hf : fetch url REQUEST_TIMEOUT = FetchResult.success doc)
    (hsd : save_data date doc varId m pOk = ⟨rep, cs, some er⟩) :
    downloadLoop m varId fetch pOk ((date, url) :: rest) acc =
      { acc with
          reqs := acc.reqs ++ [(url, REQUEST_TIMEOUT)],
          calls := acc.calls ++ cs,
          err := some er } := by
  simp [downloadLoop, hf, hsd]

/-- One step of the download loop when save_data returns no report text:
the loop continues with only the request and call traces grown. -/
theorem downloadLoop_cons_ok_empty (m : List (String × Date)) (varId : Nat)
    (fetch : String → Nat → FetchResult) (pOk : PersistCall → Bool)
    (date : Date) (url : String) (rest : List (Date × String))
    (acc : RunResult) (doc : Doc) (cs : List PersistCall)
    (hf : fetch url REQUEST_TIMEOUT = FetchResult.success doc)
    (hsd : save_data date doc varId m pOk = ⟨"", cs, none⟩) :
    downloadLoop m varId fetch pOk ((date, url) :: rest) acc =
      downloadLoop m varId fetch pOk rest
        { acc with
            reqs := acc.reqs ++ [(url, REQUEST_TIMEOUT)],
            calls := acc.calls ++ cs } := by
  simp [downloadLoop, hf, hsd]

/-- One step of the download loop when save_data returns report text:
the loop continues with the date section appended and the flag set. -/
theorem downloadLoop_cons_ok_text (m : List (String × Date)) (varId : Nat)
    (fetch : String → Nat → FetchResult) (pOk : PersistCall → Bool)
    (date : Date) (url : String) (rest : List (Date × String))
    (acc : RunResult) (doc : Doc) (rep : String) (cs : List PersistCall)
    (hf : fetch url REQUEST_TIMEOUT = FetchResult.success doc)
    (hsd : save_data date doc varId m pOk = ⟨rep, cs, none⟩)
    (hrep : rep ≠ "") :
    downloadLoop m varId fetch pOk ((date, url) :: rest) acc =
      downloadLoop m varId fetch pOk rest
        { acc with
            reqs := acc.reqs ++ [(url, REQUEST_TIMEOUT)],
            hasResult := true,
            body := (acc.body ++ "***** Exchange rates on date " ++
              dateStr date ++ " *****" ++ "\n" ++ rep ++ "\n"),
            calls := acc.calls ++ cs } := by
  simp [downloadLoop, hf, hsd, hrep]

/-- One step of the download loop: either the loop stops on an uncaught
save_data exception, leaving body and flag untouched, or it recurses on
the remaining items with exactly one request appended, the body only
extended, and the persist trace only extended, the body and flag
untouched whenever no call was added. -/
theorem downloadLoop_cons_shape (m : List (String × Date)) (varId : Nat)
    (fetch : String → Nat → FetchResult) (pOk : PersistCall → Bool)
    (date : Date) (url : String) (rest : List (Date × String))
    (acc : RunResult) :
    ((downloadLoop m varId fetch pOk ((date, url) :: rest) acc).reqs =
        acc.reqs ++ [(url, REQUEST_TIMEOUT)] ∧
      (downloadLoop m varId fetch pOk ((date, url) :: rest) acc).body =
        acc.body ∧
      (downloadLoop m varId fetch pOk ((date, url) :: rest) acc).hasResult =
        acc.hasResult ∧
      ∃ cs, (downloadLoop m varId fetch pOk ((date, url) :: rest) acc).calls =
        acc.calls ++ cs) ∨
    ∃ acc2 : RunResult,
      acc2.reqs = acc.reqs ++ [(url, REQUEST_TIMEOUT)] ∧
      (∃ t, acc2.body = acc.body ++ t) ∧
      (∃ cs, acc2.calls = acc.calls ++ cs ∧
        (cs = [] → acc2.body = acc.body ∧ acc2.hasResult = acc.hasResult)) ∧
      downloadLoop m varId fetch pOk ((date, url) :: rest) acc =
        downloadLoop m varId fetch pOk rest acc2 := by
  cases hfr : fetch url REQUEST_TIMEOUT with
  | timeout =>
    rw [downloadLoop_cons_fail m varId fetch pOk date url rest acc
      (by rw [hfr]; rfl)]
    right
    refine ⟨{ acc with reqs := acc.reqs ++ [(url, REQUEST_TIMEOUT)] },
      rfl, ?_, ?_, rfl⟩
    · exact ⟨"", (String.append_empty acc.body).symm⟩
    · exact ⟨[], (List.append_nil acc.calls).symm, fun _ => ⟨rfl, rfl⟩⟩
  | httpError code =>
    rw [downloadLoop_cons_fail m varId fetch pOk date url rest acc
      (by rw [hfr]; rfl)]
    right
    refine ⟨{ acc with reqs := acc.reqs ++ [(url, REQUEST_TIMEOUT)] },
      rfl, ?_, ?_, rfl⟩
    · exact ⟨"", (String.append_empty acc.body).symm⟩
    · exact ⟨[], (List.append_nil acc.calls).symm, fun _ => ⟨rfl, rfl⟩⟩
  | transportError =>
    rw [downloadLoop_cons_fail m varId fetch pOk date url rest acc
      (by rw [hfr]; rfl)]
    right
    refine ⟨{ acc with reqs := acc.reqs ++ [(url, REQUEST_TIMEOUT)] },
      rfl, ?_, ?_, rfl⟩
    · exact ⟨"", (String.append_empty acc.body).symm⟩
    · exact ⟨[], (List.append_nil acc.calls).symm, fun _ => ⟨rfl, rfl⟩⟩
  | success doc =>
    obtain ⟨⟨rep, cs, err⟩, hsd⟩ : ∃ r, save_data date doc varId m pOk = r :=
      ⟨_, rfl⟩
    cases err with
    | some er =>
      rw [downloadLoop_cons_err m varId fetch pOk date url rest acc doc
        rep cs er hfr hsd]
      left
      exact ⟨rfl, rfl, rfl, cs, rfl⟩
    | none =>
      by_cases hr : rep = ""
      · subst hr
        rw [downloadLoop_cons_ok_empty m varId fetch pOk date url rest acc
          doc cs hfr hsd]
        right
        refine ⟨{ acc with
            reqs := acc.reqs ++ [(url, REQUEST_TIMEOUT)],
            calls := acc.calls ++ cs }, rfl, ?_, ?_, rfl⟩
        · exact ⟨"", (String.append_empty acc.body).symm⟩
        · exact ⟨cs, rfl, fun _ => ⟨rfl, rfl⟩⟩
      · rw [downloadLoop_cons_ok_text m varId fetch pOk date url rest acc
          doc rep cs hfr hsd hr]
        right
        refine ⟨{ acc with
            reqs := acc.reqs ++ [(url, REQUEST_TIMEOUT)],
            hasResult := true,
            body := (acc.body ++ "***** Exchange rates on date " ++
              dateStr date ++ " *****" ++ "\n" ++ rep ++ "\n"),
            calls := acc.calls ++ cs }, rfl, ?_, ?_, rfl⟩
        · exact ⟨_, by rw [String.append_assoc, String.append_assoc,
            String.append_assoc, String.append_assoc, String.append_assoc]⟩
        · refine ⟨cs, rfl, fun hcs => ?_⟩
          have hrep : rep = "" := by
            have h2 := save_data_calls_nil_report date doc varId m pOk
              (by rw [hsd, hcs])
            rw [hsd] at h2
            exact h2
          exact absurd hrep hr

/-- The download loop issues exactly one request per processed work
item, in order, each with the fixed timeout. -/
theorem downloadLoop_reqs_prefix (m : List (String × Date)) (varId : Nat)
    (fetch : String → Nat → FetchResult) (pOk : PersistCall → Bool) :
    ∀ (l : List (Date × String)) (acc : RunResult),
      ∃ k, (downloadLoop m varId fetch pOk l acc).reqs =
        acc.reqs ++ (l.take k).map (fun p => (p.2, REQUEST_TIMEOUT)) := by
  intro l
  induction l with
  | nil =>
    intro acc
    exact ⟨0, by simp [downloadLoop]⟩
  | cons p rest ih =>
    obtain ⟨date, url⟩ := p
    intro acc
    rcases downloadLoop_cons_shape m varId fetch pOk date url rest acc with
      ⟨hreq, _, _, _⟩ | ⟨acc2, hreq, _, _, heq⟩
    · exact ⟨1, by rw [hreq]; simp⟩
    · obtain ⟨k, hk⟩ := ih acc2
      refine ⟨k + 1, ?_⟩
      rw [heq, hk, hreq]
      simp [List.append_assoc]

/-- The download loop only appends to the email body. -/
theorem downloadLoop_body_prefix (m : List (String × Date)) (varId : Nat)
    (fetch : String → Nat → FetchResult) (pOk : PersistCall → Bool) :
    ∀ (l : List (Date × String)) (acc : RunResult),
      ∃ t, (downloadLoop m varId fetch pOk l acc).body = acc.body ++ t := by
  intro l
  induction l with
  | nil =>
    intro acc
    exact ⟨"", (String.append_empty acc.body).symm⟩
  | cons p rest ih =>
    obtain ⟨date, url⟩ := p
    intro acc
    rcases downloadLoop_cons_shape m varId fetch pOk date url rest acc with
      ⟨_, hbody, _, _⟩ | ⟨acc2, _, ⟨t, hbody⟩, _, heq⟩
    · exact ⟨"", by rw [hbody, String.append_empty]⟩
    · obtain ⟨t2, ht2⟩ := ih acc2
      exact ⟨t ++ t2, by rw [heq, ht2, hbody, String.append_assoc]⟩

/-- The download loop only appends to the persist trace. -/
theorem downloadLoop_calls_prefix (m : List (String × Date)) (varId : Nat)
    (fetch : String → Nat → FetchResult) (pOk : PersistCall → Bool) :
    ∀ (l : List (Date × String)) (acc : RunResult),
      ∃ cs, (downloadLoop m varId fetch pOk l acc).calls = acc.calls ++ cs := by
  intro l
  induction l with
  | nil =>
    intro acc
    exact ⟨[], (List.append_nil acc.calls).symm⟩
  | cons p rest ih =>
    obtain ⟨date, url⟩ := p
    intro acc
    rcases downloadLoop_cons_shape m varId fetch pOk date url rest acc with
      ⟨_, _, _, ⟨cs, hcalls⟩⟩ | ⟨acc2, _, _, ⟨cs, hcalls, _⟩, heq⟩
    · exact ⟨cs, hcalls⟩
    · obtain ⟨cs2, hcs2⟩ := ih acc2
      exact ⟨cs ++ cs2, by rw [heq, hcs2, hcalls, List.append_assoc]⟩

/-- A download run that makes no persist call leaves the body and the
has_result_to_send flag unchanged. -/
theorem downloadLoop_no_calls (m : List (String × Date)) (varId : Nat)
    (fetch : String → Nat → FetchResult) (pOk : PersistCall → Bool) :
    ∀ (l : List (Date × String)) (acc : RunResult),
      (downloadLoop m varId fetch pOk l acc).calls = acc.calls →
      (downloadLoop m varId fetch pOk l acc).body = acc.body ∧
      (downloadLoop m varId fetch pOk l acc).hasResult = acc.hasResult := by
  intro l
  induction l with
  | nil =>
    intro acc h
    exact ⟨rfl, rfl⟩
  | cons p rest ih =>
    obtain ⟨date, url⟩ := p
    intro acc h
    rcases downloadLoop_cons_shape m varId fetch pOk date url rest acc with
      ⟨_, hbody, hhas, _⟩ | ⟨acc2, _, _, ⟨cs, hcalls, hcond⟩, heq⟩
    · exact ⟨hbody, hhas⟩
    · rw [heq] at h ⊢
      obtain ⟨cs2, hcs2⟩ := downloadLoop_calls_prefix m varId fetch pOk rest acc2
      rw [hcs2, hcalls, List.append_assoc] at h
      have h2 : acc.calls ++ (cs ++ cs2) = acc.calls ++ [] := by
        rw [h, List.append_nil]
      obtain ⟨hcsnil, hcs2nil⟩ :=
        List.append_eq_nil.mp (List.append_cancel_left h2)
      obtain ⟨hb2, hh2⟩ := hcond hcsnil
      have hcalls2 : (downloadLoop m varId fetch pOk rest acc2).calls =
          acc2.calls := by
        rw [hcs2, hcs2nil, List.append_nil]
      obtain ⟨hb3, hh3⟩ := ih acc2 hcalls2
      exact ⟨by rw [hb3, hb2], by rw [hh3, hh2]⟩

/-- C4: a work item whose fetch fails with a timeout, an HTTP status
error or a transport error is skipped exactly, with no persist call, no
report section and no retry, the run continuing on the remaining items;
the request trace is one request per processed item in order, each
issued with the fixed timeout of 30. -/
theorem c4_fetch_failure_skips (m : List (String × Date)) (varId : Nat)
    (fetch : String → Nat → FetchResult) (pOk : PersistCall → Bool) :
    (∀ urlList, ∃ k,
      (download_rates urlList m varId fetch pOk).reqs =
        (urlList.take k).map (fun p => (p.2, REQUEST_TIMEOUT)))
    ∧ REQUEST_TIMEOUT = 30
    ∧ (∀ (date : Date) (url : String) (rest : List (Date × String))
        (acc : RunResult),
        isFetchFailure (fetch url REQUEST_TIMEOUT) = true →
        downloadLoop m varId fetch pOk ((date, url) :: rest) acc =
          downloadLoop m varId fetch pOk rest
            { acc with reqs := acc.reqs ++ [(url, REQUEST_TIMEOUT)] }) := by
  refine ⟨?_, rfl, ?_⟩
  · intro urlList
    obtain ⟨k, hk⟩ := downloadLoop_reqs_prefix m varId fetch pOk urlList
      ⟨false, header varId, [], [], none⟩
    exact ⟨k, by simpa [download_rates] using hk⟩
  · intro date url rest acc hfail
    exact downloadLoop_cons_fail m varId fetch pOk date url rest acc hfail

/-- Concrete check of c4_fetch_failure_skips: a timed out item is
dropped with only its request recorded. -/
theorem c4_fetch_failure_skips_witness :
    downloadLoop [] 8 (fun _ _ => FetchResult.timeout) (fun _ => true)
        [(⟨2024, 1, 10⟩, "u")] ⟨false, header 8, [], [], none⟩ =
      downloadLoop [] 8 (fun _ _ => FetchResult.timeout) (fun _ => true)
        [] ⟨false, header 8, [], [("u", REQUEST_TIMEOUT)], none⟩ :=
  (c4_fetch_failure_skips [] 8 (fun _ _ => FetchResult.timeout)
    (fun _ => true)).2.2 ⟨2024, 1, 10⟩ "u" []
    ⟨false, header 8, [], [], none⟩ rfl

/-- C9: every download run body starts with the fixed non empty source
header, a run that persists nothing returns exactly the header with the
flag false, and the aggregator returns the empty string whenever both
flags are false regardless of the bodies. -/
theorem c9_body_header (urlList : List (Date × String))
    (m : List (String × Date)) (varId : Nat)
    (fetch : String → Nat → FetchResult) (pOk : PersistCall → Bool) :
    (∃ t, (download_rates urlList m varId fetch pOk).body =
      header varId ++ t)
    ∧ header varId ≠ ""
    ∧ ((download_rates urlList m varId fetch pOk).calls = [] →
        (download_rates urlList m varId fetch pOk).body = header varId ∧
        (download_rates urlList m varId fetch pOk).hasResult = false)
    ∧ (∀ b1 b2 : String, combineReports false b1 false b2 = "") := by
  refine ⟨?_, ?_, ?_, fun b1 b2 => rfl⟩
  · exact downloadLoop_body_prefix m varId fetch pOk urlList
      ⟨false, header varId, [], [], none⟩
  · rw [header]
    split <;> decide
  · intro h
    exact downloadLoop_no_calls m varId fetch pOk urlList
      ⟨false, header varId, [], [], none⟩ h

/-- Concrete check of c9_body_header: an empty work list yields a body
equal to the source header. -/
theorem c9_body_header_witness :
    (download_rates [] [] 8 (fun _ _ => FetchResult.timeout)
      (fun _ => true)).body = header 8 :=
  ((c9_body_header [] [] 8 (fun _ _ => FetchResult.timeout)
    (fun _ => true)).2.2.1 rfl).1

/-- C3 counterexample: a malformed document or a persist failure is not
contained. A malformed first document aborts the run with no request
for the second item, even though that item alone would persist; a
persist failure aborts after the first attempted call, leaving the
second observation of the same document unprocessed. -/
theorem c3_errors_not_contained_cex :
    (download_rates [(⟨2024, 1, 10⟩, "u1"), (⟨2024, 1, 11⟩, "u2")] exFresh 8
      (fun u _ => if u = "u1" then FetchResult.success Doc.malformed
        else FetchResult.success exDocB1) (fun _ => true)).err =
      some Err.parseError
    ∧ (download_rates [(⟨2024, 1, 10⟩, "u1"), (⟨2024, 1, 11⟩, "u2")] exFresh 8
      (fun u _ => if u = "u1" then FetchResult.success Doc.malformed
        else FetchResult.success exDocB1) (fun _ => true)).reqs =
      [("u1", 30)]
    ∧ (download_rates [(⟨2024, 1, 10⟩, "u1"), (⟨2024, 1, 11⟩, "u2")] exFresh 8
      (fun u _ => if u = "u1" then FetchResult.success Doc.malformed
        else FetchResult.success exDocB1) (fun _ => true)).calls = []
    ∧ (download_rates [(⟨2024, 1, 11⟩, "u2")] exFresh 8
      (fun u _ => if u = "u1" then FetchResult.success Doc.malformed
        else FetchResult.success exDocB1) (fun _ => true)).calls ≠ []
    ∧ (download_rates [(⟨2024, 1, 10⟩, "u")] exFresh 8
      (fun _ _ => FetchResult.success exDocB2) (fun _ => false)).err =
      some Err.persistError
    ∧ (download_rates [(⟨2024, 1, 10⟩, "u")] exFresh 8
      (fun _ _ => FetchResult.success exDocB2)
      (fun _ => false)).calls.length = 1 := by
  decide

/-- C3 amended: only fetch failures are contained per item; an exception
escaping save_data, be it the parse error of a malformed document or a
persist failure, stops the run at that point, so the remaining
observations and work items are never processed. -/
theorem c3_save_errors_abort (m : List (String × Date)) (varId : Nat)
    (fetch : String → Nat → FetchResult) (pOk : PersistCall → Bool)
    (date : Date) (url : String) (rest : List (Date × String))
    (acc : RunResult) :
    (fetch url REQUEST_TIMEOUT = FetchResult.success Doc.malformed →
      downloadLoop m varId fetch pOk ((date, url) :: rest) acc =
        { acc with
            reqs := acc.reqs ++ [(url, REQUEST_TIMEOUT)],
            err := some Err.parseError })
    ∧ (∀ (doc : Doc) (rep : String) (cs : List PersistCall) (er : Err),
        fetch url REQUEST_TIMEOUT = FetchResult.success doc →
        save_data date doc varId m pOk = ⟨rep, cs, some er⟩ →
        downloadLoop m varId fetch pOk ((date, url) :: rest) acc =
          { acc with
              reqs := acc.reqs ++ [(url, REQUEST_TIMEOUT)],
              calls := acc.calls ++ cs,
              err := some er }) := by
  constructor
  · intro hf
    rw [downloadLoop_cons_err m varId fetch pOk date url rest acc
      Doc.malformed "" [] Err.parseError hf rfl]
    simp
  · intro doc rep cs er hf hsd
    exact downloadLoop_cons_err m varId fetch pOk date url rest acc doc
      rep cs er hf hsd

/-- Concrete check of c3_save_errors_abort: one malformed document stops
the run immediately. -/
theorem c3_save_errors_abort_witness :
    downloadLoop exFresh 8 (fun _ _ => FetchResult.success Doc.malformed)
        (fun _ => true) [(⟨2024, 1, 10⟩, "u")]
        ⟨false, header 8, [], [], none⟩ =
      ⟨false, header 8, [], [("u", REQUEST_TIMEOUT)],
        some Err.parseError⟩ :=
  (c3_save_errors_abort exFresh 8
    (fun _ _ => FetchResult.success Doc.malformed) (fun _ => true)
    ⟨2024, 1, 10⟩ "u" [] ⟨false, header 8, [], [], none⟩).1 rfl

/-- An entry the staleness filter rejects is fully skipped. -/
theorem entryStep_fresh_skip (date : Date)
    (rootAttrs : List (String × String)) (varId : Nat)
    (m : List (String × Date)) (pOk : PersistCall → Bool) (e : XmlEntry)
    (hfresh : entryFresh varId date m e = true) :
    entryStep date rootAttrs varId m pOk e = ⟨"", [], none⟩ := by
  rw [entryStep]
  by_cases hv : varId = 2
  · rw [if_pos hv]
    rw [entryFresh, if_pos hv] at hfresh
    cases hc : attrGet e.attrs "ID" with
    | error er =>
      rw [hc] at hfresh
      simp at hfresh
    | ok c =>
      rw [hc] at hfresh
      simp only [Bool.not_eq_true'] at hfresh
      simp [processEntryA, hc, hfresh]
  · rw [if_neg hv]
    rw [entryFresh, if_neg hv] at hfresh
    cases hc : dictGet e.details "r030" with
    | error er =>
      rw [hc] at hfresh
      simp at hfresh
    | ok c =>
      rw [hc] at hfresh
      simp only [Bool.not_eq_true'] at hfresh
      simp [processEntryB, hc, hfresh]

/-- A save_data loop whose every entry is skipped changes nothing. -/
theorem saveLoop_skip {step : XmlEntry → EntryResult} :
    ∀ (es : List XmlEntry), (∀ e ∈ es, step e = ⟨"", [], none⟩) →
      ∀ (rep : String) (cs : List PersistCall),
        saveLoop step es rep cs = ⟨rep, cs, none⟩ := by
  intro es
  induction es with
  | nil =>
    intro _ rep cs
    rfl
  | cons e es ih =>
    intro hstep rep cs
    have he := hstep e (List.mem_cons_self e es)
    simp only [saveLoop, he]
    rw [String.append_empty, List.append_nil]
    exact ih (fun e2 he2 => hstep e2 (List.mem_cons_of_mem _ he2)) rep cs

/-- save_data on a document whose entries are all stale does nothing. -/
theorem save_data_fresh (date : Date) (root : XmlRoot) (varId : Nat)
    (m : List (String × Date)) (pOk : PersistCall → Bool)
    (hfresh : ∀ e ∈ root.entries, entryFresh varId date m e = true) :
    save_data date (Doc.wellFormed root) varId m pOk = ⟨"", [], none⟩ :=
  saveLoop_skip root.entries
    (fun e he => entryStep_fresh_skip date root.attrs varId m pOk e
      (hfresh e he)) "" []

/-- A download run over work items whose fetched documents are all well
formed and all stale leaves the accumulated state unchanged apart from
the request trace. -/
theorem downloadLoop_fresh (m : List (String × Date)) (varId : Nat)
    (fetch : String → Nat → FetchResult) (pOk : PersistCall → Bool) :
    ∀ (l : List (Date × String)) (acc : RunResult),
      (∀ date url, (date, url) ∈ l → ∀ root,
        fetch url REQUEST_TIMEOUT = FetchResult.success (Doc.wellFormed root) →
        ∀ e ∈ root.entries, entryFresh varId date m e = true) →
      (∀ date url, (date, url) ∈ l →
        fetch url REQUEST_TIMEOUT ≠ FetchResult.success Doc.malformed) →
      (downloadLoop m varId fetch pOk l acc).hasResult = acc.hasResult ∧
      (downloadLoop m varId fetch pOk l acc).body = acc.body ∧
      (downloadLoop m varId fetch pOk l acc).calls = acc.calls ∧
      (downloadLoop m varId fetch pOk l acc).err = acc.err := by
  intro l
  induction l with
  | nil =>
    intro acc _ _
    exact ⟨rfl, rfl, rfl, rfl⟩
  | cons p rest ih =>
    obtain ⟨date, url⟩ := p
    intro acc hfresh hmal
    have hfresh2 : ∀ d u, (d, u) ∈ rest → ∀ root,
        fetch u REQUEST_TIMEOUT = FetchResult.success (Doc.wellFormed root) →
        ∀ e ∈ root.entries, entryFresh varId d m e = true :=
      fun d u hm => hfresh d u (List.mem_cons_of_mem _ hm)
    have hmal2 : ∀ d u, (d, u) ∈ rest →
        fetch u REQUEST_TIMEOUT ≠ FetchResult.success Doc.malformed :=
      fun d u hm => hmal d u (List.mem_cons_of_mem _ hm)
    cases hfr : fetch url REQUEST_TIMEOUT with
    | timeout =>
      rw [downloadLoop_cons_fail m varId fetch pOk date url rest acc
        (by rw [hfr]; rfl)]
      exact ih _ hfresh2 hmal2
    | httpError code =>
      rw [downloadLoop_cons_fail m varId fetch pOk date url rest acc
        (by rw [hfr]; rfl)]
      exact ih _ hfresh2 hmal2
    | transportError =>
      rw [downloadLoop_cons_fail m varId fetch pOk date url rest acc
        (by rw [hfr]; rfl)]
      exact ih _ hfresh2 hmal2
    | success doc =>
      cases doc with
      | malformed =>
        exact absurd hfr (hmal date url (List.mem_cons_self _ _))
      | wellFormed root =>
        have hsd : save_data date (Doc.wellFormed root) varId m pOk =
            ⟨"", [], none⟩ :=
          save_data_fresh date root varId m pOk
            (hfresh date url (List.mem_cons_self _ _) root hfr)
        rw [downloadLoop_cons_ok_empty m varId fetch pOk date url rest acc
          (Doc.wellFormed root) [] hfr hsd]
        obtain ⟨h1, h2, h3, h4⟩ := ih _ hfresh2 hmal2
        refine ⟨h1, h2, ?_, h4⟩
        rw [h3]
        exact List.append_nil acc.calls

/-- C5 counterexample: a second run with no new remote data yields
hasChanges false but a body that is the fixed source header, not the
empty string the claim asserts. -/
theorem c5_second_run_body_cex :
    (download_rates [(⟨2024, 1, 10⟩, "u")] [("036", ⟨2024, 1, 10⟩)] 8
      (fun _ _ => FetchResult.success exDocB1) (fun _ => true)).hasResult =
      false
    ∧ (download_rates [(⟨2024, 1, 10⟩, "u")] [("036", ⟨2024, 1, 10⟩)] 8
      (fun _ _ => FetchResult.success exDocB1) (fun _ => true)).body =
      header 8
    ∧ (download_rates [(⟨2024, 1, 10⟩, "u")] [("036", ⟨2024, 1, 10⟩)] 8
      (fun _ _ => FetchResult.success exDocB1) (fun _ => true)).body ≠
      "" := by
  decide

/-- C5 amended: a second run in which every fetched document is well
formed and every entry is rejected by the staleness filter, because the
freshness map is at least as recent as every observation date, yields
hasChanges false, no persist call, no error, and a body equal to
exactly the fixed source header with no date sections, rather than the
empty string. -/
theorem c5_no_new_data_second_run (urlList : List (Date × String))
    (m : List (String × Date)) (varId : Nat)
    (fetch : String → Nat → FetchResult) (pOk : PersistCall → Bool)
    (hfresh : ∀ date url, (date, url) ∈ urlList → ∀ root,
      fetch url REQUEST_TIMEOUT = FetchResult.success (Doc.wellFormed root) →
      ∀ e ∈ root.entries, entryFresh varId date m e = true)
    (hmal : ∀ date url, (date, url) ∈ urlList →
      fetch url REQUEST_TIMEOUT ≠ FetchResult.success Doc.malformed) :
    (download_rates urlList m varId fetch pOk).hasResult = false ∧
    (download_rates urlList m varId fetch pOk).body = header varId ∧
    (download_rates urlList m varId fetch pOk).calls = [] ∧
    (download_rates urlList m varId fetch pOk).err = none :=
  downloadLoop_fresh m varId fetch pOk urlList
    ⟨false, header varId, [], [], none⟩ hfresh hmal

/-- Concrete check of c5_no_new_data_second_run on the example document
against an up to date freshness map. -/
theorem c5_no_new_data_second_run_witness :
    (download_rates [(⟨2024, 1, 10⟩, "u")] [("036", ⟨2024, 1, 10⟩)] 8
      (fun _ _ => FetchResult.success exDocB1) (fun _ => true)).hasResult =
      false :=
  (c5_no_new_data_second_run [(⟨2024, 1, 10⟩, "u")]
    [("036", ⟨2024, 1, 10⟩)] 8 (fun _ _ => FetchResult.success exDocB1)
    (fun _ => true)
    (by
      intro date url hm root hf e he
      simp only [List.mem_cons, List.not_mem_nil, or_false] at hm
      have hd : date = ⟨2024, 1, 10⟩ := congrArg Prod.fst hm
      simp only [exDocB1] at hf
      injection hf with h1
      injection h1 with h2
      subst h2
      simp only [List.mem_cons, List.not_mem_nil, or_false] at he
      subst he
      rw [hd]
      decide)
    (by
      intro date url hm
      simp [exDocB1])).1

/-- A CBR entry makes at most one persist call, carrying the item date
and the Identificator code of the entry. -/
theorem processEntryA_calls_shape (date : Date)
    (rootAttrs : List (String × String)) (varId : Nat)
    (m : List (String × Date)) (pOk : PersistCall → Bool) (e : XmlEntry) :
    (processEntryA date rootAttrs varId m pOk e).calls = [] ∨
    ∃ call, (processEntryA date rootAttrs varId m pOk e).calls = [call] ∧
      call.date = date ∧ entryCode 2 e = some call.crncy := by
  simp only [processEntryA]
  repeat' split
  all_goals try (left; rfl)
  all_goals right; refine ⟨_, rfl, rfl, ?_⟩; simp_all [entryCode]

/-- An NBU entry makes at most one persist call, carrying the item date
and the r030 code of the entry. -/
theorem processEntryB_calls_shape (date : Date) (varId : Nat)
    (m : List (String × Date)) (pOk : PersistCall → Bool) (e : XmlEntry) :
    (processEntryB date varId m pOk e).calls = [] ∨
    ∃ call, (processEntryB date varId m pOk e).calls = [call] ∧
      call.date = date ∧
      ∃ c, dictGet e.details "r030" = Except.ok c ∧ call.crncy = c := by
  simp only [processEntryB]
  repeat' split
  all_goals try (left; rfl)
  all_goals right; refine ⟨_, rfl, rfl, _, ?_, rfl⟩; assumption

/-- Any entry makes at most one persist call, carrying the item date and
the code the entry persists under. -/
theorem entryStep_calls_shape (date : Date)
    (rootAttrs : List (String × String)) (varId : Nat)
    (m : List (String × Date)) (pOk : PersistCall → Bool) (e : XmlEntry) :
    (entryStep date rootAttrs varId m pOk e).calls = [] ∨
    ∃ call, (entryStep date rootAttrs varId m pOk e).calls = [call] ∧
      call.date = date ∧ entryCode varId e = some call.crncy := by
  rw [entryStep]
  by_cases hv : varId = 2
  · subst hv
    rw [if_pos rfl]
    exact processEntryA_calls_shape date rootAttrs 2 m pOk e
  · rw [if_neg hv]
    rcases processEntryB_calls_shape date varId m pOk e with
      h | ⟨call, h1, h2, c, hc, hcr⟩
    · left
      exact h
    · right
      refine ⟨call, h1, h2, ?_⟩
      rw [entryCode, if_neg hv, hc, hcr]

/-- The calls of a save_data loop extend the trace by one block whose
codes form a sublist of the per entry codes of the document and whose
dates all equal the item date. -/
theorem saveLoop_calls_codes {step : XmlEntry → EntryResult}
    {code? : XmlEntry → Option String} {date : Date}
    (hshape : ∀ e, (step e).calls = [] ∨
      ∃ call, (step e).calls = [call] ∧ call.date = date ∧
        code? e = some call.crncy) :
    ∀ (es : List XmlEntry) (rep : String) (cs : List PersistCall),
      ∃ tail, (saveLoop step es rep cs).calls = cs ++ tail ∧
        List.Sublist (tail.map (fun c => c.crncy))
          (es.filterMap code?) ∧
        ∀ c ∈ tail, c.date = date := by
  intro es
  induction es with
  | nil =>
    intro rep cs
    exact ⟨[], (List.append_nil cs).symm, by simp, by simp⟩
  | cons e es ih =>
    intro rep cs
    simp only [saveLoop]
    cases her : (step e).err with
    | some er =>
      rcases hshape e with h0 | ⟨call, h1, hd, hcode⟩
      · refine ⟨(step e).calls, rfl, ?_, ?_⟩
        · rw [h0]
          simp
        · rw [h0]
          simp
      · refine ⟨(step e).calls, rfl, ?_, ?_⟩
        · rw [h1]
          simp only [List.map_cons, List.map_nil, List.filterMap_cons, hcode]
          exact List.Sublist.cons₂ _ (List.nil_sublist _)
        · intro c hc
          rw [h1] at hc
          simp only [List.mem_singleton] at hc
          subst hc
          exact hd
    | none =>
      obtain ⟨t, ht, hsub, hdates⟩ := ih (rep ++ (step e).line)
        (cs ++ (step e).calls)
      rcases hshape e with h0 | ⟨call, h1, hd, hcode⟩
      · refine ⟨t, ?_, ?_, hdates⟩
        · rw [ht, h0, List.append_nil]
        · refine hsub.trans ?_
          simp only [List.filterMap_cons]
          cases code? e with
          | none => exact List.Sublist.refl _
          | some c => exact List.sublist_cons_self _ _
      · refine ⟨call :: t, ?_, ?_, ?_⟩
        · rw [ht, h1, List.append_assoc]
          rfl
        · simp only [List.map_cons, List.filterMap_cons, hcode]
          exact List.Sublist.cons₂ _ hsub
        · intro c hc
          rcases List.mem_cons.mp hc with hc1 | hc2
          · subst hc1
            exact hd
          · exact hdates c hc2

/-- The persist calls of one save_data run carry pairwise distinct codes
when the document has no duplicate entry code, and all carry the item
date. -/
theorem save_data_calls_codes (date : Date) (root : XmlRoot)
    (varId : Nat) (m : List (String × Date)) (pOk : PersistCall → Bool) :
    List.Sublist
      ((save_data date (Doc.wellFormed root) varId m pOk).calls.map
        (fun c => c.crncy))
      (root.entries.filterMap (entryCode varId)) ∧
    ∀ c ∈ (save_data date (Doc.wellFormed root) varId m pOk).calls,
      c.date = date := by
  obtain ⟨tail, ht, hsub, hdates⟩ := saveLoop_calls_codes
    (fun e => entryStep_calls_shape date root.attrs varId m pOk e)
    root.entries "" []
  have hcalls : (save_data date (Doc.wellFormed root) varId m pOk).calls =
      tail := ht
  rw [hcalls]
  exact ⟨hsub, hdates⟩

/-- Pairs of code and date of the persist calls of a download run are
pairwise distinct, provided work item dates are pairwise distinct and
no fetched document carries two entries persisting the same code. -/
theorem downloadLoop_nodup_pairs (m : List (String × Date)) (varId : Nat)
    (fetch : String → Nat → FetchResult) (pOk : PersistCall → Bool) :
    ∀ (l : List (Date × String)) (acc : RunResult),
      (l.map Prod.fst).Nodup →
      (∀ date url, (date, url) ∈ l → ∀ root,
        fetch url REQUEST_TIMEOUT =
          FetchResult.success (Doc.wellFormed root) →
        (root.entries.filterMap (entryCode varId)).Nodup) →
      (acc.calls.map (fun c => (c.crncy, c.date))).Nodup →
      (∀ c ∈ acc.calls, c.date ∉ l.map Prod.fst) →
      ((downloadLoop m varId fetch pOk l acc).calls.map
        (fun c => (c.crncy, c.date))).Nodup := by
  intro l
  induction l with
  | nil =>
    intro acc _ _ hacc _
    exact hacc
  | cons p rest ih =>
    obtain ⟨date, url⟩ := p
    intro acc hdates hdocs hacc hfar
    have hdates2 : (rest.map Prod.fst).Nodup :=
      (List.nodup_cons.mp (by simpa using hdates)).2
    have hdnotin : date ∉ rest.map Prod.fst :=
      (List.nodup_cons.mp (by simpa using hdates)).1
    have hdocs2 : ∀ d u, (d, u) ∈ rest → ∀ root,
        fetch u REQUEST_TIMEOUT =
          FetchResult.success (Doc.wellFormed root) →
        (root.entries.filterMap (entryCode varId)).Nodup :=
      fun d u hm => hdocs d u (List.mem_cons_of_mem _ hm)
    have hfar2 : ∀ c ∈ acc.calls, c.date ∉ rest.map Prod.fst := by
      intro c hc hmem
      exact hfar c hc (by simp [hmem])
    cases hfr : fetch url REQUEST_TIMEOUT with
    | timeout =>
      rw [downloadLoop_cons_fail m varId fetch pOk date url rest acc
        (by rw [hfr]; rfl)]
      exact ih _ hdates2 hdocs2 hacc hfar2
    | httpError code =>
      rw [downloadLoop_cons_fail m varId fetch pOk date url rest acc
        (by rw [hfr]; rfl)]
      exact ih _ hdates2 hdocs2 hacc hfar2
    | transportError =>
      rw [downloadLoop_cons_fail m varId fetch pOk date url rest acc
        (by rw [hfr]; rfl)]
      exact ih _ hdates2 hdocs2 hacc hfar2
    | success doc =>
      cases doc with
      | malformed =>
        rw [downloadLoop_cons_err m varId fetch pOk date url rest acc
          Doc.malformed "" [] Err.parseError hfr rfl]
        simpa using hacc
      | wellFormed root =>
        obtain ⟨hsub, hbdates⟩ := save_data_calls_codes date root varId m pOk
        have hnodocs : (root.entries.filterMap (entryCode varId)).Nodup :=
          hdocs date url (List.mem_cons_self _ _) root hfr
        have hnodB : (((save_data date (Doc.wellFormed root) varId m
            pOk).calls.map (fun c => (c.crncy, c.date)))).Nodup := by
          refine List.Nodup.of_map Prod.fst ?_
          have hmm : (((save_data date (Doc.wellFormed root) varId m
              pOk).calls.map (fun c => (c.crncy, c.date))).map Prod.fst) =
              ((save_data date (Doc.wellFormed root) varId m pOk).calls.map
                (fun c => c.crncy)) := by
            rw [List.map_map]
            rfl
          rw [hmm]
          exact List.Nodup.sublist hsub hnodocs
        have happ : (((acc.calls ++ (save_data date (Doc.wellFormed root)
            varId m pOk).calls).map (fun c => (c.crncy, c.date)))).Nodup := by
          rw [List.map_append]
          refine List.Nodup.append hacc hnodB ?_
          rw [List.disjoint_left]
          intro pr hpr hpr2
          obtain ⟨c1, hc1, hpr1⟩ := List.mem_map.mp hpr
          obtain ⟨c2, hc2, hpr2b⟩ := List.mem_map.mp hpr2
          have hd12 : c1.date = c2.date := by
            have hsnd := congrArg Prod.snd (hpr1.trans hpr2b.symm)
            exact hsnd
          have hcd : c1.date = date := by
            rw [hd12]
            exact hbdates c2 hc2
          exact hfar c1 hc1 (by simp [hcd])
        have hfarB : ∀ c ∈ acc.calls ++ (save_data date
            (Doc.wellFormed root) varId m pOk).calls,
            c.date ∉ rest.map Prod.fst := by
          intro c hc
          rcases List.mem_append.mp hc with hca | hcb
          · exact hfar2 c hca
          · rw [hbdates c hcb]
            exact hdnotin
        obtain ⟨⟨rep, cs, err⟩, hsd⟩ :
            ∃ r, save_data date (Doc.wellFormed root) varId m pOk = r :=
          ⟨_, rfl⟩
        have happ2 : (((acc.calls ++ cs).map
            (fun c => (c.crncy, c.date)))).Nodup := by
          rw [← show (save_data date (Doc.wellFormed root) varId m
            pOk).calls = cs from by rw [hsd]]
          exact happ
        have hfarB2 : ∀ c ∈ acc.calls ++ cs, c.date ∉ rest.map Prod.fst := by
          rw [← show (save_data date (Doc.wellFormed root) varId m
            pOk).calls = cs from by rw [hsd]]
          exact hfarB
        cases err with
        | some er =>
          rw [downloadLoop_cons_err m varId fetch pOk date url rest acc
            (Doc.wellFormed root) rep cs er hfr hsd]
          exact happ2
        | none =>
          by_cases hr : rep = ""
          · subst hr
            rw [downloadLoop_cons_ok_empty m varId fetch pOk date url rest
              acc (Doc.wellFormed root) cs hfr hsd]
            exact ih _ hdates2 hdocs2 happ2 hfarB2
          · rw [downloadLoop_cons_ok_text m varId fetch pOk date url rest
              acc (Doc.wellFormed root) rep cs hfr hsd hr]
            exact ih _ hdates2 hdocs2 happ2 hfarB2

/-- C7 counterexample: a document carrying two entries for the same
currency makes the run invoke persist twice for the same code and date
pair, because the staleness filter compares against the snapshot taken
at the start of the run and not against what the run already saved. -/
theorem c7_duplicate_pair_cex :
    ¬ List.Nodup ((download_rates [(⟨2024, 1, 10⟩, "u")] exFresh 8
      (fun _ _ => FetchResult.success exDocB2) (fun _ => true)).calls.map
      (fun c => (c.crncy, c.date))) := by
  decide

/-- C7 amended: within one run, persist is invoked at most once per
code and date pair provided the work item dates are pairwise distinct
and no fetched document carries two entries persisting under the same
currency code. -/
theorem c7_at_most_once_per_pair (urlList : List (Date × String))
    (m : List (String × Date)) (varId : Nat)
    (fetch : String → Nat → FetchResult) (pOk : PersistCall → Bool)
    (hdates : (urlList.map Prod.fst).Nodup)
    (hdocs : ∀ date url, (date, url) ∈ urlList → ∀ root,
      fetch url REQUEST_TIMEOUT =
        FetchResult.success (Doc.wellFormed root) →
      (root.entries.filterMap (entryCode varId)).Nodup) :
    ((download_rates urlList m varId fetch pOk).calls.map
      (fun c => (c.crncy, c.date))).Nodup :=
  downloadLoop_nodup_pairs m varId fetch pOk urlList
    ⟨false, header varId, [], [], none⟩ hdates hdocs (by simp) (by simp)

/-- Concrete check of c7_at_most_once_per_pair on a one entry document. -/
theorem c7_at_most_once_per_pair_witness :
    ((download_rates [(⟨2024, 1, 10⟩, "u")] exFresh 8
      (fun _ _ => FetchResult.success exDocB1) (fun _ => true)).calls.map
      (fun c => (c.crncy, c.date))).Nodup :=
  c7_at_most_once_per_pair [(⟨2024, 1, 10⟩, "u")] exFresh 8
    (fun _ _ => FetchResult.success exDocB1) (fun _ => true)
    (by decide)
    (by
      intro date url hm root hf
      simp only [exDocB1] at hf
      injection hf with h1
      injection h1 with h2
      subst h2
      decide)

/-- C10: parsing and saving is not total on well formed documents with
missing fields. A CBR root without a Date attribute, a passing CBR
entry without Nominal, Value or CharCode, and an NBU entry without
r030, rate or cc each raise the corresponding key lookup error, not the
parse error reserved for malformed XML; the CharCode and cc failures
even occur after the persist call; and the failure is not contained per
item, aborting the run before the next work item is fetched. -/
theorem c10_missing_fields_key_errors :
    (save_data ⟨2024, 1, 10⟩ (Doc.wellFormed ⟨[], [exEntryA]⟩) 2 exFreshA
      (fun _ => true)).err = some (Err.keyError "Date")
    ∧ (save_data ⟨2024, 1, 10⟩ (Doc.wellFormed ⟨[("Date", "10.01.2024")],
      [⟨[("ID", "840")], [⟨"Value", "90,5000"⟩, ⟨"CharCode", "USD"⟩]⟩]⟩) 2
      exFreshA (fun _ => true)).err = some (Err.keyError "Nominal")
    ∧ (save_data ⟨2024, 1, 10⟩ (Doc.wellFormed ⟨[("Date", "10.01.2024")],
      [⟨[("ID", "840")], [⟨"Nominal", "1"⟩, ⟨"CharCode", "USD"⟩]⟩]⟩) 2
      exFreshA (fun _ => true)).err = some (Err.keyError "Value")
    ∧ (save_data ⟨2024, 1, 10⟩ (Doc.wellFormed ⟨[("Date", "10.01.2024")],
      [⟨[("ID", "840")], [⟨"Nominal", "1"⟩, ⟨"Value", "90,5000"⟩]⟩]⟩) 2
      exFreshA (fun _ => true)).err = some (Err.keyError "CharCode")
    ∧ (save_data ⟨2024, 1, 10⟩ (Doc.wellFormed ⟨[("Date", "10.01.2024")],
      [⟨[("ID", "840")], [⟨"Nominal", "1"⟩, ⟨"Value", "90,5000"⟩]⟩]⟩) 2
      exFreshA (fun _ => true)).calls.length = 1
    ∧ (save_data ⟨2024, 1, 10⟩ exDocBNoCode 8 exFresh
      (fun _ => true)).err = some (Err.keyError "r030")
    ∧ (save_data ⟨2024, 1, 10⟩ (Doc.wellFormed ⟨[],
      [⟨[], [⟨"r030", "036"⟩, ⟨"cc", "AUD"⟩]⟩]⟩) 8 exFresh
      (fun _ => true)).err = some (Err.keyError "rate")
    ∧ (save_data ⟨2024, 1, 10⟩ (Doc.wellFormed ⟨[],
      [⟨[], [⟨"r030", "036"⟩, ⟨"rate", "2,5"⟩]⟩]⟩) 8 exFresh
      (fun _ => true)).err = some (Err.keyError "cc")
    ∧ (save_data ⟨2024, 1, 10⟩ (Doc.wellFormed ⟨[],
      [⟨[], [⟨"r030", "036"⟩, ⟨"rate", "2,5"⟩]⟩]⟩) 8 exFresh
      (fun _ => true)).calls.length = 1
    ∧ (download_rates [(⟨2024, 1, 10⟩, "u1"), (⟨2024, 1, 11⟩, "u2")]
      exFresh 8 (fun _ _ => FetchResult.success exDocBNoCode)
      (fun _ => true)).err = some (Err.keyError "r030")
    ∧ (download_rates [(⟨2024, 1, 10⟩, "u1"), (⟨2024, 1, 11⟩, "u2")]
      exFresh 8 (fun _ _ => FetchResult.success exDocBNoCode)
      (fun _ => true)).reqs = [("u1", 30)] := by
  decide

end CRD
